import Mathlib

/-!
Shallow embedding of the core of a database-backed background job system
(the `backie`/`fang`-style crate in this repository), together with proofs
about the embedded operations.

Conventions of the embedding:
* machine integers are modelled as `Int`/`Nat` with explicit saturation or
  wrap-around where the source uses `saturating_*` or `as` casts;
* timestamps (`SqliteDateTime`, encoded in the store as unix seconds, `i64`)
  are modelled as `Int`;
* `std::time::Duration` values that the code produces are whole seconds
  (`Duration::from_secs`), so durations are modelled as `Nat` seconds;
* database tables are modelled as `List` of row structures and each SQL
  statement as an explicit function of the list, parametrised by `now`;
* fallible operations return `Option`/`Except`.
-/

/-! ## Machine-integer helpers -/

/-- `i32::MAX`. -/
def i32Max : Int := 2 ^ 31 - 1

/-- `i32::MIN`. -/
def i32Min : Int := -(2 ^ 31)

/-- `u64::MAX`. -/
def u64Max : Nat := 2 ^ 64 - 1

/-- Rust `i32::saturating_add`. -/
def satAddI32 (a b : Int) : Int :=
  max i32Min (min i32Max (a + b))

/-- Rust `as u32` cast of an `i32` value (two's complement reinterpretation). -/
def i32AsU32 (a : Int) : Nat :=
  (a % 2 ^ 32).toNat

/-- Rust `u64::saturating_pow`: `b ^ e`, saturating at `u64::MAX`. -/
def satPowU64 (b e : Nat) : Nat :=
  min (b ^ e) u64Max

/-! ## `BackoffMode` (src/src/lib.rs)

`enum BackoffMode { NoBackoff, ExponentialBackoff }` with
`Default = ExponentialBackoff` and
`next_attempt(attempt: i32) -> Duration` returning
`0` seconds for `NoBackoff` and
`Duration::from_secs(2u64.saturating_pow(attempt.saturating_add(1) as u32))`
for `ExponentialBackoff`. -/

inductive BackoffMode
  | NoBackoff
  | ExponentialBackoff
  deriving DecidableEq, Repr

instance : Inhabited BackoffMode := ⟨BackoffMode.ExponentialBackoff⟩

namespace BackoffMode

/-- `BackoffMode::next_attempt` from src/src/lib.rs, in whole seconds. -/
def nextAttemptSecs : BackoffMode → Int → Nat
  | NoBackoff, _ => 0
  | ExponentialBackoff, attempt => satPowU64 2 (i32AsU32 (satAddI32 attempt 1))

end BackoffMode

/-! ## `RetentionMode` (src/src/lib.rs)

`enum RetentionMode { KeepAll, RemoveAll, RemoveDone }` with
`impl Default for RetentionMode { fn default() -> Self { Self::RemoveDone } }`.
The worker in src/src/worker.rs spells the third variant `RemoveFinished`;
the semantics of its match arm (remove on success, fail on failure) is the
one modelled for `RemoveDone` here. -/

inductive RetentionMode
  | KeepAll
  | RemoveAll
  | RemoveDone
  deriving DecidableEq, Repr

instance : Inhabited RetentionMode := ⟨RetentionMode.RemoveDone⟩

/-- `impl Default for RetentionMode` from src/src/lib.rs. -/
def RetentionMode.default : RetentionMode := RetentionMode.RemoveDone

namespace Backie

/-! ## The `backie_tasks` record (src/src/sqlite_task.rs)

`Task` as persisted in the `backie_tasks` table: timestamps are
`SqliteDateTime` (unix seconds, `i64`); optional timestamps are
`OptionalSqliteDateTime`; `error_info` is an optional JSON value which the
code only ever writes as `json!({"error": msg})`, modelled by the
single-field structure `ErrorInfo`. -/

/-- The JSON object `{"error": msg}` written by `fail_with_message` and
`schedule_retry` in src/src/queries.rs. -/
structure ErrorInfo where
  error : String
  deriving DecidableEq, Repr

/-- `TaskState` from src/src/sqlite_task.rs. -/
inductive TaskState
  | Ready
  | Running
  | Failed (msg : String)
  | Done
  deriving DecidableEq, Repr

/-- The `Task` record of src/src/sqlite_task.rs (`backie_tasks` row).
`id` is the 128-bit UUID value; `payload` is the serialized JSON payload,
kept opaque as a string. -/
structure Task where
  id : Nat
  task_name : String
  queue_name : String
  uniq_hash : Option String
  payload : String
  timeout_msecs : Int
  created_at : Int
  scheduled_at : Int
  running_at : Option Int
  done_at : Option Int
  error_info : Option ErrorInfo
  retries : Int
  max_retries : Int
  backoff_mode : BackoffMode
  deriving DecidableEq, Repr

namespace Task

/-- `Task::state` from src/src/sqlite_task.rs:
match on `(done_at, error_info)`: both set → Failed, done only → Done,
neither done but running → Running, otherwise Ready. -/
def state (t : Task) : TaskState :=
  match t.done_at, t.error_info with
  | some _, some e => TaskState.Failed e.error
  | some _, none => TaskState.Done
  | none, _ => if t.running_at.isSome then TaskState.Running else TaskState.Ready

end Task

/-! ## SQL operations on `backie_tasks` (src/src/queries.rs)

Each operation is parametrised by `now : Int` (the `Utc::now()` unix-seconds
timestamp captured at the start of the call). -/

/-- Seconds of `chrono::Duration::max_value()` (`i64::MAX` milliseconds). -/
def chronoMaxSecs : Int := (2 ^ 63 - 1) / 1000

/-- `Utc::now() + chrono::Duration::from_std(backoff).unwrap_or_else(|_| chrono::Duration::max_value())`
from `Task::schedule_retry` in src/src/queries.rs. `from_std` fails exactly
when the duration exceeds `chrono::Duration::max_value()` (`i64::MAX`
milliseconds), in which case the code falls back to the maximum, so the sum
saturates instead of overflowing. `backoffSecs` is whole seconds. -/
def chronoAddBackoff (now : Int) (backoffSecs : Nat) : Int :=
  if (backoffSecs : Int) * 1000 ≤ 2 ^ 63 - 1 then now + backoffSecs
  else now + chronoMaxSecs

namespace Task

/-- `Task::schedule_retry` (src/src/queries.rs): the row update
`SET error_info = {"error": msg}, retries = retries + 1, scheduled_at = now + backoff, running_at = NULL`
applied to the matched row, which is returned (`RETURNING *`). -/
def scheduleRetry (now : Int) (t : Task) (backoffSecs : Nat) (errorMessage : String) : Task :=
  { t with
    error_info := some ⟨errorMessage⟩
    retries := t.retries + 1
    scheduled_at := chronoAddBackoff now backoffSecs
    running_at := none }

/-- `Task::fail_with_message` (src/src/queries.rs):
`SET error_info = {"error": msg}, done_at = now`. -/
def failWithMessage (now : Int) (t : Task) (errorMessage : String) : Task :=
  { t with error_info := some ⟨errorMessage⟩, done_at := some now }

/-- `Task::set_running` (src/src/queries.rs): `SET running_at = now`. -/
def setRunning (now : Int) (t : Task) : Task :=
  { t with running_at := some now }

/-- `Task::set_done` (src/src/queries.rs): `SET done_at = now`. -/
def setDone (now : Int) (t : Task) : Task :=
  { t with done_at := some now }

/-- The `NewTask` values destructured by `Task::insert`
(src/src/sqlite_task.rs `NewTask::into_values`). -/
structure NewValues where
  task_name : String
  queue_name : String
  uniq_hash : Option String
  payload : String
  timeout_msecs : Int
  max_retries : Int
  backoff_mode : BackoffMode
  deriving DecidableEq, Repr

/-- `Task::insert` (src/src/queries.rs): inserts a row with a fresh UUID
`id`, `created_at = scheduled_at = now`, `retries = 0`, and the columns of
the `NewTask`; `running_at`, `done_at` and `error_info` are not in the
column list, hence NULL. The fresh UUID is passed in as `id`. -/
def insert (now : Int) (id : Nat) (nv : NewValues) : Task :=
  { id := id
    task_name := nv.task_name
    queue_name := nv.queue_name
    uniq_hash := nv.uniq_hash
    payload := nv.payload
    timeout_msecs := nv.timeout_msecs
    created_at := now
    scheduled_at := now
    running_at := none
    done_at := none
    error_info := none
    retries := 0
    max_retries := nv.max_retries
    backoff_mode := nv.backoff_mode }

/-- The WHERE clause of `Task::fetch_next_pending` (src/src/queries.rs):
`task_name IN names AND scheduled_at < now AND done_at IS NULL AND
queue_name = queue AND (running_at IS NULL [OR running_at < now - timeout])`;
the bracketed disjunct exists only when `execution_timeout` is provided,
with `now - timeout` computed through `chrono::Duration::from_std` falling
back to `chrono::Duration::max_value()` on overflow. -/
def pendingPred (now : Int) (queue : String) (executionTimeout : Option Nat)
    (names : List String) (t : Task) : Bool :=
  t.task_name ∈ names && t.scheduled_at < now && t.done_at = none
    && t.queue_name = queue
    && match executionTimeout with
       | none => t.running_at = none
       | some timeout =>
         let threshold : Int :=
           if (timeout : Int) * 1000 ≤ 2 ^ 63 - 1 then now - timeout
           else now - chronoMaxSecs
         match t.running_at with
         | none => true
         | some r => r < threshold

end Task

end Backie

/-! ## Row selection (`ORDER BY ... LIMIT 1`)

`selectBy lt l` returns a row of `l` that is minimal for the strict
comparison `lt`, keeping the earlier row when neither compares strictly
below the other (SQL leaves the order of peers unspecified; the theorems
proved below only use minimality, which holds for every tie-breaking
choice). -/

def selectBy (lt : α → α → Bool) : List α → Option α
  | [] => none
  | x :: xs => some (xs.foldl (fun best y => if lt y best then y else best) x)

namespace Backie

/-- Comparison of `ORDER BY created_at ASC` in `Task::fetch_next_pending`
(src/src/queries.rs); no further ORDER BY key appears in the query. -/
def createdAtLt (a b : Task) : Bool :=
  a.created_at < b.created_at

/-- `Task::fetch_next_pending` (src/src/queries.rs): a plain `SELECT`
returning one row satisfying the WHERE clause, ordered by `created_at ASC`
with `LIMIT 1`; the function performs no UPDATE. `db` is the
`backie_tasks` table contents. -/
def Task.fetchNextPending (now : Int) (db : List Task) (queue : String)
    (executionTimeout : Option Nat) (names : List String) : Option Task :=
  selectBy createdAtLt (db.filter (Task.pendingPred now queue executionTimeout names))

end Backie

/-! ## `SqliteTaskStore` (src/src/store/sqlite_task_store.rs)

The store's SQL addresses a different schema: a `tasks` table with columns
`id, name, queue_name, priority, payload, state, created_at,
last_execution_date, retry_count, last_error, next_retry_date,
completed_at, failed_at, error`. `state` is a text column written as
`'pending'`, `'running'`, `'done'` or `'failed'`. Timestamps
(`DATETIME('now')` and friends) are modelled as `Int` seconds. -/

namespace SqliteStore

/-- A row of the `tasks` table addressed by
src/src/store/sqlite_task_store.rs. -/
structure TasksRow where
  id : Nat
  name : String
  queue_name : String
  priority : Int
  payload : String
  state : String
  created_at : Int
  last_execution_date : Option Int
  retry_count : Int
  last_error : Option String
  next_retry_date : Option Int
  completed_at : Option Int
  failed_at : Option Int
  error : Option String
  deriving DecidableEq, Repr

/-- The WHERE clause of `SqliteTaskStore::pull_next_task`:
`queue_name = ? AND state = 'pending' AND name IN (...)` plus, only when
`execution_timeout` is provided, the interpolated clause
`(last_execution_date IS NULL OR DATETIME(last_execution_date, '+N seconds') <= DATETIME('now'))`. -/
def pullPred (now : Int) (queue : String) (executionTimeout : Option Nat)
    (names : List String) (r : TasksRow) : Bool :=
  r.queue_name = queue && r.state = "pending" && r.name ∈ names
    && match executionTimeout with
       | none => true
       | some timeout =>
         match r.last_execution_date with
         | none => true
         | some d => d + (timeout : Int) ≤ now

/-- The comparison of `ORDER BY priority DESC, created_at ASC` in
`SqliteTaskStore::pull_next_task`: a row sorts strictly before another when
its `priority` is larger, or the priorities are equal and its `created_at`
is smaller. -/
def priorityCreatedLt (a b : TasksRow) : Bool :=
  b.priority < a.priority || (a.priority = b.priority && a.created_at < b.created_at)

/-- `SqliteTaskStore::pull_next_task`: inside one transaction, select one
row by `pullPred` ordered by `priority DESC, created_at ASC` (`LIMIT 1`);
if a row was found, update it to `state = 'running',
last_execution_date = DATETIME('now')` and commit, returning the row as
selected (the code returns the pre-update `task` value); otherwise return
`None` with the table unchanged. The result pairs the returned value with
the table contents after the call. -/
def pullNextTask (now : Int) (db : List TasksRow) (queue : String)
    (executionTimeout : Option Nat) (names : List String) :
    Option TasksRow × List TasksRow :=
  match selectBy priorityCreatedLt (db.filter (pullPred now queue executionTimeout names)) with
  | none => (none, db)
  | some r =>
    (some r,
      db.map fun row =>
        if row.id = r.id then { row with state := "running", last_execution_date := some now }
        else row)

/-- The `TaskState` argument of `set_task_state` (re-exported
`TaskState` of src/src/sqlite_task.rs). -/
abbrev StoreTaskState := Backie.TaskState

/-- `SqliteTaskStore::set_task_state`: `Done` sets `state = 'done',
completed_at = now`; `Failed(msg)` sets `state = 'failed', error = msg,
failed_at = now`; every other state is a no-op (`_ => ()`). -/
def setTaskState (now : Int) (db : List TasksRow) (id : Nat) (st : StoreTaskState) :
    List TasksRow :=
  match st with
  | Backie.TaskState.Done =>
    db.map fun row =>
      if row.id = id then { row with state := "done", completed_at := some now } else row
  | Backie.TaskState.Failed msg =>
    db.map fun row =>
      if row.id = id then { row with state := "failed", error := some msg, failed_at := some now }
      else row
  | _ => db

/-- `SqliteTaskStore::remove_task`: `DELETE FROM tasks WHERE id = ?`,
returning the remaining table and `rows_affected`. -/
def removeTask (db : List TasksRow) (id : Nat) : List TasksRow × Nat :=
  (db.filter fun row => row.id ≠ id, (db.filter fun row => row.id = id).length)

/-- `SqliteTaskStore::enqueue`: the INSERT's column list is
`(name, queue_name, priority, payload, state, created_at)` with values
`(?, ?, ?, ?, 'pending', DATETIME('now'))`, and the call binds only the
new task's `task_name`, `queue_name` and `payload` (three binds for four
placeholders; `uniq_hash`, `timeout_msecs`, `max_retries` and
`backoff_mode` appear nowhere in the statement). The inserted row is
modelled with the three bound fields, `state = 'pending'`,
`created_at = now`, and schema defaults (`0`/NULL) everywhere else. -/
def enqueueRow (now : Int) (id : Nat) (nv : Backie.Task.NewValues) : TasksRow :=
  { id := id
    name := nv.task_name
    queue_name := nv.queue_name
    priority := 0
    payload := nv.payload
    state := "pending"
    created_at := now
    last_execution_date := none
    retry_count := 0
    last_error := none
    next_retry_date := none
    completed_at := none
    failed_at := none
    error := none }

/-- `SqliteTaskStore::schedule_task_retry`: `UPDATE tasks SET
state = 'pending', retry_count = retry_count + 1, last_error = ?,
next_retry_date = DATETIME('now', '+N seconds') WHERE id = ? RETURNING *`.
`last_execution_date` is not in the SET list and is left unchanged. -/
def scheduleTaskRetry (now : Int) (r : TasksRow) (backoffSecs : Nat) (errorMessage : String) :
    TasksRow :=
  { r with
    state := "pending"
    retry_count := r.retry_count + 1
    last_error := some errorMessage
    next_retry_date := some (now + backoffSecs) }

/-- The `scheduled_at` of §3 of the spec as realised by this schema: the
task runs no earlier than `next_retry_date` when one was set by
`schedule_task_retry`, and no earlier than `created_at` otherwise. -/
def scheduledAtOf (r : TasksRow) : Int :=
  r.next_retry_date.getD r.created_at

end SqliteStore

/-! ## The worker (src/src/worker.rs)

`AsyncWorker::run`, `AsyncWorker::finalize_task` and `AsyncWorker::run_tasks`.
The worker's task type is the repository's job record (§3: the `Task` of
src/src/task.rs / src/src/sqlite_task.rs); only the fields the worker reads
(`id`, `retries`, `metadata`/payload) plus the record's `timeout_msecs` are
carried. The runnable resolved from the payload is modelled by the data the
worker consumes from it: `max_retries()`, `backoff(attempt: u32)`, the
presence of a `CronPattern` schedule, and the outcome of `run(...)`
(`Result<(), FrangoError>`, with `FrangoError.description` as the message). -/

namespace Worker

/-- The fields of the claimed record that `AsyncWorker` receives. -/
structure WTask where
  id : Nat
  retries : Int
  metadata : String
  timeout_msecs : Int
  deriving DecidableEq, Repr

/-- The interface of a deserialized `Box<dyn AsyncRunnable>` as consumed by
`AsyncWorker::run` and `AsyncWorker::run_tasks`: `max_retries()`,
`backoff(attempt)` (seconds), whether `cron()` returns a `CronPattern`, and
the result of `run(...)`. -/
structure Runnable where
  maxRetries : Int
  backoff : Nat → Nat
  cronPattern : Bool
  result : Except String Unit

/-- The store call emitted by one attempt of the worker. -/
inductive RunEffect
  | updateTaskStateFinished
  | failTask (msg : String)
  | removeTask
  | scheduleRetry (backoffSecs : Nat) (msg : String)
  deriving DecidableEq, Repr

/-- `AsyncWorker::finalize_task` (src/src/worker.rs lines 54–84): match on
retention mode and result. `KeepAll`: success → `update_task_state(Finished)`,
failure → `fail_task(description)`; `RemoveAll`: `remove_task(id)`;
`RemoveDone` (spelled `RemoveFinished` in worker.rs): success →
`remove_task(id)`, failure → `fail_task(description)`. -/
def finalizeTask (retention : RetentionMode) (result : Except String Unit) : RunEffect :=
  match retention, result with
  | RetentionMode.KeepAll, Except.ok _ => RunEffect.updateTaskStateFinished
  | RetentionMode.KeepAll, Except.error e => RunEffect.failTask e
  | RetentionMode.RemoveAll, _ => RunEffect.removeTask
  | RetentionMode.RemoveDone, Except.ok _ => RunEffect.removeTask
  | RetentionMode.RemoveDone, Except.error e => RunEffect.failTask e

/-- `AsyncWorker::run` (src/src/worker.rs lines 32–52): await
`runnable.run(...)` (no timer is raced against it and no field of the task
other than `retries` is consulted); on `Ok` finalize; on `Err` schedule a
retry with `runnable.backoff(task.retries as u32)` when
`task.retries < runnable.max_retries()`, otherwise finalize. -/
def run (retention : RetentionMode) (task : WTask) (runnable : Runnable) : RunEffect :=
  match runnable.result with
  | Except.ok _ => finalizeTask retention (Except.ok ())
  | Except.error e =>
    if task.retries < runnable.maxRetries then
      RunEffect.scheduleRetry (runnable.backoff (i32AsU32 task.retries)) e
    else
      finalizeTask retention (Except.error e)

/-- Result of `fetch_and_touch_task` as matched by `AsyncWorker::run_tasks`. -/
inductive FetchResult
  | ok (t : Option WTask)
  | fetchFailed (e : String)

/-- What one iteration of the `AsyncWorker::run_tasks` loop does. -/
inductive StepOutcome
  | panicked
  | slept
  | ran (cronScheduled : Bool) (eff : RunEffect)
  deriving DecidableEq, Repr

/-- One iteration of `AsyncWorker::run_tasks` (src/src/worker.rs lines
92–124). On a fetched task the payload is deserialized with
`serde_json::from_value(task.metadata.clone()).unwrap()`: a deserialization
failure (unknown task type or malformed payload) is an unwrap on `Err`,
i.e. a panic that exits the loop. On `Ok(None)` or a fetch error the worker
sleeps and continues. `deser` is the typetag-driven deserializer of the
registered runnables. -/
def runTasksStep (retention : RetentionMode) (deser : String → Option Runnable)
    (fetched : FetchResult) : StepOutcome :=
  match fetched with
  | FetchResult.ok (some task) =>
    match deser task.metadata with
    | none => StepOutcome.panicked
    | some runnable => StepOutcome.ran runnable.cronPattern (run retention task runnable)
  | FetchResult.ok none => StepOutcome.slept
  | FetchResult.fetchFailed _ => StepOutcome.slept

end Worker

/-! ## `TaskId` (src/src/sqlite_task.rs)

`TaskId(Uuid)`. `impl Display` writes the inner `Uuid` with the `uuid`
crate's `Display` (the canonical hyphenated form: 32 lowercase hex digits
of the 128-bit value, most significant first, in groups of 8-4-4-4-12
separated by `-`). `impl FromStr` is `Uuid::parse_str`, modelled here on
its hyphenated branch (the branch taken for every 36-character input, and
the only one `Display` output can reach): hyphens at positions 8, 13, 18
and 23, case-insensitive hex digits elsewhere. The 128-bit value is
modelled as a `Nat` below `2^128`. -/

namespace UuidModel

/-- Lowercase hex digit character for `d < 16`. -/
def hexChar (d : Nat) : Char :=
  if d < 10 then Char.ofNat (48 + d) else Char.ofNat (87 + d)

/-- Case-insensitive hex digit value, as accepted by `Uuid::parse_str`. -/
def hexVal (c : Char) : Option Nat :=
  let n := c.toNat
  if 48 ≤ n ∧ n ≤ 57 then some (n - 48)
  else if 97 ≤ n ∧ n ≤ 102 then some (n - 87)
  else if 65 ≤ n ∧ n ≤ 70 then some (n - 55)
  else none

/-- Big-endian fixed-width hex rendering of `n` on `w` digits. -/
def toHexBE : Nat → Nat → List Char
  | 0, _ => []
  | w + 1, n => hexChar (n / 16 ^ w) :: toHexBE w (n % 16 ^ w)

/-- Read exactly `k` hex digits from the front of `cs`, big-endian,
accumulating into `acc`; returns the value and the remaining characters. -/
def readHexAux (acc : Nat) : Nat → List Char → Option (Nat × List Char)
  | 0, cs => some (acc, cs)
  | _ + 1, [] => none
  | k + 1, c :: cs =>
    match hexVal c with
    | some d => readHexAux (16 * acc + d) k cs
    | none => none

/-- The character list of the `uuid` crate's hyphenated `Display` of the
128-bit value `u`: groups of 8, 4, 4, 4 and 12 hex digits. -/
def displayChars (u : Nat) : List Char :=
  toHexBE 8 (u / 16 ^ 24)
    ++ '-' :: toHexBE 4 (u / 16 ^ 20 % 16 ^ 4)
    ++ '-' :: toHexBE 4 (u / 16 ^ 16 % 16 ^ 4)
    ++ '-' :: toHexBE 4 (u / 16 ^ 12 % 16 ^ 4)
    ++ '-' :: toHexBE 12 (u % 16 ^ 12)

/-- Expect a single `-` separator. -/
def expectHyphen : List Char → Option (List Char)
  | '-' :: cs => some cs
  | _ => none

/-- The hyphenated branch of `Uuid::parse_str`: five hex groups of sizes
8, 4, 4, 4 and 12, separated by `-`, nothing trailing. -/
def parseChars (cs : List Char) : Option Nat :=
  (readHexAux 0 8 cs).bind fun p1 =>
  (expectHyphen p1.2).bind fun cs1 =>
  (readHexAux 0 4 cs1).bind fun p2 =>
  (expectHyphen p2.2).bind fun cs2 =>
  (readHexAux 0 4 cs2).bind fun p3 =>
  (expectHyphen p3.2).bind fun cs3 =>
  (readHexAux 0 4 cs3).bind fun p4 =>
  (expectHyphen p4.2).bind fun cs4 =>
  (readHexAux 0 12 cs4).bind fun p5 =>
  if p5.2 = [] then
    some ((((p1.1 * 16 ^ 4 + p2.1) * 16 ^ 4 + p3.1) * 16 ^ 4 + p4.1) * 16 ^ 12 + p5.1)
  else none

end UuidModel

/-- `TaskId` of src/src/sqlite_task.rs: a newtype over the 128-bit `Uuid`
value. -/
structure TaskId where
  uuid : Nat
  deriving DecidableEq, Repr

namespace TaskId

/-- `impl Display for TaskId` (src/src/sqlite_task.rs lines 25–29):
`write!(f, "{}", self.0)`, i.e. the uuid's hyphenated form. -/
def display (t : TaskId) : String :=
  ⟨UuidModel.displayChars t.uuid⟩

/-- `impl FromStr for TaskId` (src/src/sqlite_task.rs lines 43–49):
`Uuid::parse_str(s)` wrapped back into `TaskId`. -/
def fromStr (s : String) : Option TaskId :=
  (UuidModel.parseChars s.data).map fun u => ⟨u⟩

end TaskId

/-- Modelled from the spec: `AsyncRunnable::backoff` — the trait the worker
calls (`runnable.backoff(task.retries as u32)`) lives in `runnable.rs`,
which is not under src/; §4.1 of the spec defines the backoff policy as the
pure function `delay(mode, attempt)`, i.e. `BackoffMode::next_attempt` of
src/src/lib.rs, so the registered runnable's backoff is modelled as that
function of the record's `backoff_mode`. -/
def specBackoff (mode : BackoffMode) (attempt : Nat) : Nat :=
  BackoffMode.nextAttemptSecs mode (Int.ofNat attempt)

/-! ## Concrete rows and jobs used in counterexamples and witnesses -/

namespace SqliteStore

/-- A `tasks` row in the shape `schedule_task_retry` leaves behind: state
back to `'pending'`, `next_retry_date` set to a future instant (100),
`last_execution_date` still carrying the previous claim time (5). -/
def retriedRow : TasksRow :=
  { id := 1, name := "t", queue_name := "q", priority := 0, payload := "{}",
    state := "pending", created_at := 0, last_execution_date := some 5,
    retry_count := 1, last_error := some "boom", next_retry_date := some 100,
    completed_at := none, failed_at := none, error := none }

/-- A freshly enqueued pending row. -/
def pendingRow : TasksRow :=
  { id := 2, name := "t", queue_name := "q", priority := 0, payload := "{}",
    state := "pending", created_at := 3, last_execution_date := none,
    retry_count := 0, last_error := none, next_retry_date := none,
    completed_at := none, failed_at := none, error := none }

/-- An old pending row with default priority. -/
def rowOldLowPrio : TasksRow :=
  { id := 3, name := "t", queue_name := "q", priority := 0, payload := "{}",
    state := "pending", created_at := 1, last_execution_date := none,
    retry_count := 0, last_error := none, next_retry_date := none,
    completed_at := none, failed_at := none, error := none }

/-- A newer pending row with a higher priority. -/
def rowNewHighPrio : TasksRow :=
  { id := 4, name := "t", queue_name := "q", priority := 5, payload := "{}",
    state := "pending", created_at := 10, last_execution_date := none,
    retry_count := 0, last_error := none, next_retry_date := none,
    completed_at := none, failed_at := none, error := none }

end SqliteStore

/-- A new job with `max_retries = 0`, the default 120 s timeout, no
`uniq_hash` and exponential backoff. -/
def nvA : Backie.Task.NewValues :=
  { task_name := "t", queue_name := "q", uniq_hash := none, payload := "{}",
    timeout_msecs := 120000, max_retries := 0,
    backoff_mode := BackoffMode.ExponentialBackoff }

/-- A new job with the same name, queue and payload as `nvA` but different
`uniq_hash`, `timeout_msecs`, `max_retries` and `backoff_mode`. -/
def nvB : Backie.Task.NewValues :=
  { task_name := "t", queue_name := "q", uniq_hash := some "h", payload := "{}",
    timeout_msecs := 5, max_retries := 7,
    backoff_mode := BackoffMode.NoBackoff }


/-! ## Lemmas about row selection -/

theorem selectBy_eq_none (lt : α → α → Bool) (l : List α) :
    selectBy lt l = none ↔ l = [] := by
  cases l <;> simp [selectBy]

theorem foldl_min_mem (lt : α → α → Bool) (xs : List α) (x : α) :
    xs.foldl (fun best y => if lt y best then y else best) x = x ∨
      xs.foldl (fun best y => if lt y best then y else best) x ∈ xs := by
  induction xs generalizing x with
  | nil => simp
  | cons z zs ih =>
    simp only [List.foldl_cons]
    rcases ih (if lt z x then z else x) with h | h
    · rw [h]
      by_cases hz : lt z x = true
      · simp [hz]
      · simp [hz]
    · right
      exact List.mem_cons_of_mem _ h

theorem selectBy_mem (lt : α → α → Bool) (l : List α) (x : α)
    (h : selectBy lt l = some x) : x ∈ l := by
  cases l with
  | nil => simp [selectBy] at h
  | cons a as =>
    simp only [selectBy, Option.some.injEq] at h
    rcases foldl_min_mem lt as a with h' | h'
    · rw [← h, h']; exact List.mem_cons_self _ _
    · rw [← h]; exact List.mem_cons_of_mem _ h'

theorem foldl_min_below_seed (lt : α → α → Bool)
    (htrans : ∀ a b c, lt a b = true → lt b c = true → lt a c = true)
    (xs : List α) (x : α) :
    xs.foldl (fun best y => if lt y best then y else best) x = x ∨
      lt (xs.foldl (fun best y => if lt y best then y else best) x) x = true := by
  induction xs generalizing x with
  | nil => exact Or.inl rfl
  | cons z zs ih =>
    simp only [List.foldl_cons]
    by_cases hz : lt z x = true
    · rw [if_pos hz]
      rcases ih z with h | h
      · rw [h]; exact Or.inr hz
      · exact Or.inr (htrans _ _ _ h hz)
    · rw [if_neg hz]
      exact ih x

theorem foldl_min_not_lt (lt : α → α → Bool)
    (hasym : ∀ a b, lt a b = true → lt b a = false)
    (htrans : ∀ a b c, lt a b = true → lt b c = true → lt a c = true)
    (xs : List α) (x : α) :
    ∀ y, y = x ∨ y ∈ xs →
      lt y (xs.foldl (fun best y => if lt y best then y else best) x) = false := by
  induction xs generalizing x with
  | nil =>
    intro y hy
    simp only [List.not_mem_nil, or_false] at hy
    subst hy
    simp only [List.foldl_nil]
    by_contra h
    have h' := eq_true_of_ne_false h
    have := hasym _ _ h'
    rw [this] at h'
    exact Bool.false_ne_true h'
  | cons z zs ih =>
    intro y hy
    simp only [List.foldl_cons]
    by_cases hz : lt z x = true
    · rw [if_pos hz]
      rcases hy with hy | hy
      · -- y = x, the discarded seed: x is above z, which is above the result
        subst hy
        by_contra h
        have h' := eq_true_of_ne_false h
        have hzr : lt z (zs.foldl (fun best y => if lt y best then y else best) z) = false :=
          ih z z (Or.inl rfl)
        have : lt z (zs.foldl (fun best y => if lt y best then y else best) z) = true :=
          htrans _ _ _ hz h'
        rw [hzr] at this
        exact Bool.false_ne_true this
      · rcases List.mem_cons.mp hy with hy | hy
        · rw [hy]; exact ih z z (Or.inl rfl)
        · exact ih z y (Or.inr hy)
    · rw [if_neg hz]
      rcases hy with hy | hy
      · rw [hy]; exact ih x x (Or.inl rfl)
      · rcases List.mem_cons.mp hy with hy | hy
        · -- y = z, which did not displace the seed
          subst hy
          by_contra h
          have h' := eq_true_of_ne_false h
          rcases foldl_min_below_seed lt htrans zs x with hr | hr
          · rw [hr] at h'
            rw [h'] at hz
            exact hz rfl
          · have : lt y x = true := htrans _ _ _ h' hr
            rw [this] at hz
            exact hz rfl
        · exact ih x y (Or.inr hy)

theorem selectBy_min (lt : α → α → Bool)
    (hasym : ∀ a b, lt a b = true → lt b a = false)
    (htrans : ∀ a b c, lt a b = true → lt b c = true → lt a c = true)
    (l : List α) (x : α) (h : selectBy lt l = some x) :
    ∀ y ∈ l, lt y x = false := by
  cases l with
  | nil => simp [selectBy] at h
  | cons a as =>
    simp only [selectBy, Option.some.injEq] at h
    intro y hy
    rw [← h]
    rcases List.mem_cons.mp hy with hy | hy
    · exact foldl_min_not_lt lt hasym htrans as a y (Or.inl hy)
    · exact foldl_min_not_lt lt hasym htrans as a y (Or.inr hy)

namespace UuidModel

theorem hexVal_hexChar : ∀ d, d < 16 → hexVal (hexChar d) = some d := by decide

theorem readHexAux_toHexBE (w : Nat) : ∀ (acc n : Nat) (rest : List Char), n < 16 ^ w →
    readHexAux acc w (toHexBE w n ++ rest) = some (acc * 16 ^ w + n, rest) := by
  induction w with
  | zero =>
    intro acc n rest hn
    have hn0 : n = 0 := by simpa using Nat.lt_one_iff.mp (by simpa using hn)
    subst hn0
    simp [toHexBE, readHexAux]
  | succ w ih =>
    intro acc n rest hn
    have hd : n / 16 ^ w < 16 := Nat.div_lt_of_lt_mul (by rw [pow_succ] at hn; exact hn)
    have hm : n % 16 ^ w < 16 ^ w := Nat.mod_lt _ (Nat.pos_pow_of_pos w (by norm_num))
    simp only [toHexBE, List.cons_append, readHexAux, hexVal_hexChar _ hd, List.append_eq]
    rw [ih (16 * acc + n / 16 ^ w) (n % 16 ^ w) rest hm]
    have hmod : 16 ^ w * (n / 16 ^ w) + n % 16 ^ w = n := Nat.div_add_mod n (16 ^ w)
    have hval : (16 * acc + n / 16 ^ w) * 16 ^ w + n % 16 ^ w = acc * 16 ^ (w + 1) + n := by
      calc (16 * acc + n / 16 ^ w) * 16 ^ w + n % 16 ^ w
          = 16 * acc * 16 ^ w + (16 ^ w * (n / 16 ^ w) + n % 16 ^ w) := by ring
        _ = acc * 16 ^ (w + 1) + n := by rw [hmod, pow_succ]; ring
    rw [hval]

theorem parseChars_displayChars (u : Nat) (hu : u < 2 ^ 128) :
    parseChars (displayChars u) = some u := by
  have hu' : u < 16 ^ 32 := by
    calc u < 2 ^ 128 := hu
      _ = 16 ^ 32 := by norm_num
  have h1 : u / 16 ^ 24 < 16 ^ 8 := by
    apply Nat.div_lt_of_lt_mul
    calc u < 16 ^ 32 := hu'
      _ = 16 ^ 8 * 16 ^ 24 := by norm_num
  have h2 : u / 16 ^ 20 % 16 ^ 4 < 16 ^ 4 := Nat.mod_lt _ (by norm_num)
  have h3 : u / 16 ^ 16 % 16 ^ 4 < 16 ^ 4 := Nat.mod_lt _ (by norm_num)
  have h4 : u / 16 ^ 12 % 16 ^ 4 < 16 ^ 4 := Nat.mod_lt _ (by norm_num)
  have h5 : u % 16 ^ 12 < 16 ^ 12 := Nat.mod_lt _ (by norm_num)
  unfold parseChars displayChars
  simp only [List.append_assoc, List.cons_append]
  rw [readHexAux_toHexBE 8 0 _ _ h1]
  simp only [Option.some_bind, expectHyphen]
  rw [readHexAux_toHexBE 4 0 _ _ h2]
  simp only [Option.some_bind, expectHyphen]
  rw [readHexAux_toHexBE 4 0 _ _ h3]
  simp only [Option.some_bind, expectHyphen]
  rw [readHexAux_toHexBE 4 0 _ _ h4]
  simp only [Option.some_bind, expectHyphen]
  rw [← List.append_nil (toHexBE 12 (u % 16 ^ 12)), readHexAux_toHexBE 12 0 _ _ h5]
  simp only [Option.some_bind, Option.some.injEq]
  rw [if_pos trivial]
  simp only [Nat.zero_mul, Nat.zero_add, Option.some.injEq]
  have e1 : u / 16 ^ 24 = u / 16 ^ 20 / 16 ^ 4 := by
    rw [Nat.div_div_eq_div_mul]; norm_num
  have e2 : u / 16 ^ 20 = u / 16 ^ 16 / 16 ^ 4 := by
    rw [Nat.div_div_eq_div_mul]; norm_num
  have e3 : u / 16 ^ 16 = u / 16 ^ 12 / 16 ^ 4 := by
    rw [Nat.div_div_eq_div_mul]; norm_num
  calc (((u / 16 ^ 24 * 16 ^ 4 + u / 16 ^ 20 % 16 ^ 4) * 16 ^ 4 + u / 16 ^ 16 % 16 ^ 4) * 16 ^ 4
        + u / 16 ^ 12 % 16 ^ 4) * 16 ^ 12 + u % 16 ^ 12
      = ((u / 16 ^ 20 * 16 ^ 4 + u / 16 ^ 16 % 16 ^ 4) * 16 ^ 4
        + u / 16 ^ 12 % 16 ^ 4) * 16 ^ 12 + u % 16 ^ 12 := by rw [e1, Nat.div_add_mod']
    _ = (u / 16 ^ 16 * 16 ^ 4 + u / 16 ^ 12 % 16 ^ 4) * 16 ^ 12 + u % 16 ^ 12 := by
        rw [e2, Nat.div_add_mod']
    _ = u / 16 ^ 12 * 16 ^ 12 + u % 16 ^ 12 := by rw [e3, Nat.div_add_mod']
    _ = u := Nat.div_add_mod' u (16 ^ 12)


end UuidModel

/-! ## Additional helper lemmas -/

theorem filter_eq_nil_of_false (p : α → Bool) (l : List α)
    (h : ∀ a ∈ l, p a = false) : l.filter p = [] := by
  induction l with
  | nil => rfl
  | cons x xs ih =>
    simp only [List.filter_cons, h x (List.mem_cons_self x xs)]
    exact ih fun a ha => h a (List.mem_cons_of_mem x ha)

theorem finalizeTask_ne_scheduleRetry (retention : RetentionMode)
    (res : Except String Unit) (b : Nat) (m : String) :
    Worker.finalizeTask retention res ≠ Worker.RunEffect.scheduleRetry b m := by
  cases retention <;> cases res <;> simp [Worker.finalizeTask]

/-! ## Claim theorems -/

/-- C8: the backoff policy is a pure function with
`delay(NoBackoff, attempt) = 0` for every attempt, and
`delay(ExponentialBackoff, attempt) = 2^(attempt+1)` seconds for every
attempt ≥ 0 (in `i32` range), saturating at the finite maximum `u64::MAX`
instead of overflowing. -/
theorem c8_backoff_delay :
    (∀ a : Int, BackoffMode.nextAttemptSecs BackoffMode.NoBackoff a = 0) ∧
    (∀ a : Int, 0 ≤ a → a ≤ i32Max →
      BackoffMode.nextAttemptSecs BackoffMode.ExponentialBackoff a
        = min (2 ^ (a.toNat + 1)) u64Max) := by
  constructor
  · intro a; rfl
  · intro a h0 hmax
    by_cases ha : a = i32Max
    · subst ha
      have hE : i32AsU32 (satAddI32 i32Max 1) = 2 ^ 31 - 1 := by
        simp only [i32AsU32, satAddI32, i32Max, i32Min]
        omega
      have hT : (i32Max.toNat + 1) = 2 ^ 31 := by
        simp only [i32Max]; omega
      show satPowU64 2 (i32AsU32 (satAddI32 i32Max 1)) = min (2 ^ (i32Max.toNat + 1)) u64Max
      rw [hE, hT]
      show min (2 ^ (2 ^ 31 - 1)) u64Max = min (2 ^ 2 ^ 31) u64Max
      have hb1 : u64Max ≤ 2 ^ (2 ^ 31 - 1) := by
        calc u64Max ≤ 2 ^ 64 := by simp only [u64Max]; omega
          _ ≤ 2 ^ (2 ^ 31 - 1) := Nat.pow_le_pow_right (by norm_num) (by norm_num)
      have hb2 : u64Max ≤ 2 ^ 2 ^ 31 := by
        calc u64Max ≤ 2 ^ 64 := by simp only [u64Max]; omega
          _ ≤ 2 ^ 2 ^ 31 := Nat.pow_le_pow_right (by norm_num) (by norm_num)
      rw [min_eq_right hb1, min_eq_right hb2]
    · have hlt : a < i32Max := lt_of_le_of_ne hmax ha
      have hE : i32AsU32 (satAddI32 a 1) = a.toNat + 1 := by
        simp only [i32AsU32, satAddI32, i32Max, i32Min] at *
        omega
      show satPowU64 2 (i32AsU32 (satAddI32 a 1)) = min (2 ^ (a.toNat + 1)) u64Max
      rw [hE]
      rfl

/-- Witness for C8 at `attempt = 3`: no backoff gives 0 seconds and
exponential backoff gives `2^4 = 16` seconds. -/
theorem c8_backoff_delay_witness :
    BackoffMode.nextAttemptSecs BackoffMode.NoBackoff 5 = 0 ∧
    BackoffMode.nextAttemptSecs BackoffMode.ExponentialBackoff 3 = 16 := by
  constructor
  · exact c8_backoff_delay.1 5
  · have h := c8_backoff_delay.2 3 (by norm_num) (by norm_num [i32Max])
    rw [h]
    decide

/-- C9: retention at finalize. `KeepAll` keeps the record and sets its state
(Done via `update_task_state(Finished)` on success, Failed via
`fail_task` on failure); `RemoveAll` deletes regardless of outcome;
`RemoveDone` (spelled `RemoveFinished` in worker.rs) deletes on success and
persists Failed on final failure; and the unspecified retention mode
defaults to `RemoveDone`. -/
theorem c9_retention_finalize :
    Worker.finalizeTask RetentionMode.KeepAll (Except.ok ())
      = Worker.RunEffect.updateTaskStateFinished ∧
    (∀ msg, Worker.finalizeTask RetentionMode.KeepAll (Except.error msg)
      = Worker.RunEffect.failTask msg) ∧
    (∀ res, Worker.finalizeTask RetentionMode.RemoveAll res
      = Worker.RunEffect.removeTask) ∧
    Worker.finalizeTask RetentionMode.RemoveDone (Except.ok ())
      = Worker.RunEffect.removeTask ∧
    (∀ msg, Worker.finalizeTask RetentionMode.RemoveDone (Except.error msg)
      = Worker.RunEffect.failTask msg) ∧
    RetentionMode.default = RetentionMode.RemoveDone := by
  refine ⟨rfl, fun msg => rfl, fun res => ?_, rfl, fun msg => rfl, rfl⟩
  cases res <;> rfl

/-- C3: on a failed attempt, when `task.retries < runnable.max_retries()`
the worker emits `schedule_retry` with backoff
`runnable.backoff(task.retries as u32)` — spec-modelled as
`delay(backoff_mode, retries)` — and the retried record
(`Task::schedule_retry`) is Ready again; when `retries ≥ max_retries` the
worker instead finalizes the failure under the retention mode; a task with
`max_retries = 0` (and the invariant `retries ≥ 0`) is never re-scheduled. -/
theorem c3_retry_policy :
    (∀ (retention : RetentionMode) (task : Worker.WTask) (r : Worker.Runnable)
        (mode : BackoffMode) (e : String),
      r.result = Except.error e →
      r.backoff = specBackoff mode →
      0 ≤ task.retries → task.retries ≤ i32Max →
      task.retries < r.maxRetries →
      Worker.run retention task r
        = Worker.RunEffect.scheduleRetry (specBackoff mode task.retries.toNat) e) ∧
    (∀ (now : Int) (t : Backie.Task) (b : Nat) (msg : String),
      t.done_at = none →
      (Backie.Task.scheduleRetry now t b msg).state = Backie.TaskState.Ready) ∧
    (∀ (retention : RetentionMode) (task : Worker.WTask) (r : Worker.Runnable) (e : String),
      r.result = Except.error e →
      r.maxRetries ≤ task.retries →
      Worker.run retention task r = Worker.finalizeTask retention (Except.error e)) ∧
    (∀ (retention : RetentionMode) (task : Worker.WTask) (r : Worker.Runnable)
        (b : Nat) (m : String),
      r.maxRetries = 0 → 0 ≤ task.retries →
      Worker.run retention task r ≠ Worker.RunEffect.scheduleRetry b m) := by
  refine ⟨?_, ?_, ?_, ?_⟩
  · intro retention task r mode e hres hb h0 hmax hlt
    have hcast : i32AsU32 task.retries = task.retries.toNat := by
      simp only [i32AsU32, i32Max] at *
      omega
    simp only [Worker.run, hres, if_pos hlt, hb, hcast]
  · intro now t b msg hdone
    simp [Backie.Task.scheduleRetry, Backie.Task.state, hdone]
  · intro retention task r e hres hge
    simp only [Worker.run, hres, if_neg (not_lt.mpr hge)]
  · intro retention task r b m hmax h0
    cases hres : r.result with
    | ok u =>
      simp only [Worker.run, hres]
      exact finalizeTask_ne_scheduleRetry retention (Except.ok ()) b m
    | error e =>
      simp only [Worker.run, hres]
      rw [if_neg (by omega)]
      exact finalizeTask_ne_scheduleRetry retention (Except.error e) b m

/-- Witness for C3: a failing runnable with `max_retries = 2` on a record
with `retries = 0` and exponential backoff is re-scheduled with a 2-second
backoff; the retried record is Ready; with `max_retries = 0` the same
failure is finalized and not re-scheduled. -/
theorem c3_retry_policy_witness :
    Worker.run RetentionMode.KeepAll ⟨1, 0, "p", 120000⟩
        ⟨2, specBackoff BackoffMode.ExponentialBackoff, false, Except.error "boom"⟩
      = Worker.RunEffect.scheduleRetry 2 "boom" ∧
    (Backie.Task.scheduleRetry 100
        (Backie.Task.insert 0 7
          ⟨"t", "q", none, "{}", 120000, 2, BackoffMode.ExponentialBackoff⟩)
        2 "boom").state = Backie.TaskState.Ready ∧
    Worker.run RetentionMode.KeepAll ⟨1, 0, "p", 120000⟩
        ⟨0, specBackoff BackoffMode.ExponentialBackoff, false, Except.error "boom"⟩
      = Worker.finalizeTask RetentionMode.KeepAll (Except.error "boom") := by
  refine ⟨?_, ?_, ?_⟩
  · have h := c3_retry_policy.1 RetentionMode.KeepAll ⟨1, 0, "p", 120000⟩
      ⟨2, specBackoff BackoffMode.ExponentialBackoff, false, Except.error "boom"⟩
      BackoffMode.ExponentialBackoff "boom" rfl rfl (by norm_num)
      (by norm_num [i32Max]) (by norm_num)
    rw [h]
    decide
  · exact c3_retry_policy.2.1 100
      (Backie.Task.insert 0 7 ⟨"t", "q", none, "{}", 120000, 2, BackoffMode.ExponentialBackoff⟩)
      2 "boom" rfl
  · exact c3_retry_policy.2.2.1 RetentionMode.KeepAll ⟨1, 0, "p", 120000⟩
      ⟨0, specBackoff BackoffMode.ExponentialBackoff, false, Except.error "boom"⟩
      "boom" rfl (by norm_num)

/-- C4 (divergence witness): `AsyncWorker::run` awaits the runner with no
race against a timer — its outcome does not depend on the record's
`timeout_msecs` in any way, and a runner that returns `Ok` is finalized as
a success no matter how long it ran; no "task timed out" classification
exists in the code. -/
theorem c4_run_ignores_timeout :
    (∀ (retention : RetentionMode) (task : Worker.WTask) (r : Worker.Runnable) (t : Int),
      Worker.run retention { task with timeout_msecs := t } r
        = Worker.run retention task r) ∧
    (∀ (retention : RetentionMode) (task : Worker.WTask) (r : Worker.Runnable),
      r.result = Except.ok () →
      Worker.run retention task r = Worker.finalizeTask retention (Except.ok ())) := by
  constructor
  · intro retention task r t
    cases task
    rfl
  · intro retention task r hok
    simp only [Worker.run, hok]

/-- Witness for C4: a record with `timeout_msecs = 0` whose runner
completed with `Ok` is finalized as a success — never as the failure
"task timed out" that the claim requires for an over-running attempt. -/
theorem c4_run_ignores_timeout_witness :
    Worker.run RetentionMode.KeepAll ⟨1, 0, "p", 0⟩
        ⟨0, fun _ => 0, false, Except.ok ()⟩
      = Worker.RunEffect.updateTaskStateFinished ∧
    Worker.run RetentionMode.KeepAll ⟨1, 0, "p", 999999⟩ ⟨0, fun _ => 0, false, Except.ok ()⟩
      = Worker.run RetentionMode.KeepAll ⟨1, 0, "p", 0⟩ ⟨0, fun _ => 0, false, Except.ok ()⟩ := by
  constructor
  · exact c4_run_ignores_timeout.2 RetentionMode.KeepAll ⟨1, 0, "p", 0⟩
      ⟨0, fun _ => 0, false, Except.ok ()⟩ rfl
  · exact c4_run_ignores_timeout.1 RetentionMode.KeepAll ⟨1, 0, "p", 0⟩
      ⟨0, fun _ => 0, false, Except.ok ()⟩ 999999

/-- C5 (divergence witness): when a fetched record's payload does not
deserialize to a registered runnable (unknown task type or malformed
payload), `AsyncWorker::run_tasks` evaluates
`serde_json::from_value(task.metadata.clone()).unwrap()` — the iteration
panics and the worker loop exits; no terminal failure is recorded for the
task and the loop does not continue. -/
theorem c5_deser_unwrap_panics :
    Worker.runTasksStep RetentionMode.RemoveDone (fun _ => none)
        (Worker.FetchResult.ok (some ⟨1, 0, "unknown-task-type-payload", 120000⟩))
      = Worker.StepOutcome.panicked := rfl

/-- C10: `Display` followed by `FromStr` on `TaskId` is the identity: for
every `TaskId` (a 128-bit UUID value), parsing the hyphenated display
string yields `Ok` of the same `TaskId`. -/
theorem c10_taskid_roundtrip (t : TaskId) (h : t.uuid < 2 ^ 128) :
    TaskId.fromStr (TaskId.display t) = some t := by
  unfold TaskId.fromStr TaskId.display
  rw [show (String.mk (UuidModel.displayChars t.uuid)).data
        = UuidModel.displayChars t.uuid from rfl]
  rw [UuidModel.parseChars_displayChars t.uuid h]
  rfl

/-- Witness for C10 at the UUID value 1
(`00000000-0000-0000-0000-000000000001`). -/
theorem c10_taskid_roundtrip_witness :
    TaskId.fromStr (TaskId.display ⟨1⟩) = some ⟨1⟩ ∧ (1 : Nat) < 2 ^ 128 :=
  ⟨c10_taskid_roundtrip ⟨1⟩ (by norm_num), by norm_num⟩

/-- C1 counterexample: at `now = 10`, a single-row table holding
`retriedRow` — whose `scheduled_at` (its `next_retry_date`, 100) is in the
future and whose `running_at` (`last_execution_date`, 5) is non-null while
no `execution_timeout` is passed — is still returned by
`SqliteTaskStore::pull_next_task`; the claim instead requires such a call
to return `None`. -/
theorem c1_pull_cex :
    (SqliteStore.pullNextTask 10 [SqliteStore.retriedRow] "q" none ["t"]).1
      = some SqliteStore.retriedRow ∧
    10 < SqliteStore.scheduledAtOf SqliteStore.retriedRow ∧
    SqliteStore.retriedRow.last_execution_date ≠ none := by
  refine ⟨?_, by decide, by decide⟩
  decide

/-- C1 amended: `SqliteTaskStore::pull_next_task` returns only records of
the queried queue whose `state` is `'pending'` and whose `name` is in the
allowed list — plus, exactly when `execution_timeout` is provided, whose
`last_execution_date` is null or at least `execution_timeout` seconds old
(non-strictly); the selected record's row is set to `state = 'running'`
with `last_execution_date = now` inside the same transaction; when no
record satisfies that predicate the call returns `None` and leaves the
table unchanged. `scheduled_at`/`next_retry_date` is never consulted.
`Task::fetch_next_pending` (queries.rs) checks the claim's full predicate
(with `scheduled_at < now` strictly) but performs no update at all. -/
theorem c1_pull_contract_amended :
    (∀ (now : Int) (db : List SqliteStore.TasksRow) (queue : String)
        (eto : Option Nat) (names : List String) (r : SqliteStore.TasksRow),
      (SqliteStore.pullNextTask now db queue eto names).1 = some r →
      r ∈ db ∧ SqliteStore.pullPred now queue eto names r = true) ∧
    (∀ (now : Int) (db : List SqliteStore.TasksRow) (queue : String)
        (eto : Option Nat) (names : List String) (r : SqliteStore.TasksRow),
      (SqliteStore.pullNextTask now db queue eto names).1 = some r →
      (SqliteStore.pullNextTask now db queue eto names).2
        = db.map fun row =>
            if row.id = r.id then
              { row with state := "running", last_execution_date := some now }
            else row) ∧
    (∀ (now : Int) (db : List SqliteStore.TasksRow) (queue : String)
        (eto : Option Nat) (names : List String),
      (∀ r ∈ db, SqliteStore.pullPred now queue eto names r = false) →
      SqliteStore.pullNextTask now db queue eto names = (none, db)) ∧
    (∀ (now : Int) (db : List Backie.Task) (queue : String) (eto : Option Nat)
        (names : List String) (t : Backie.Task),
      Backie.Task.fetchNextPending now db queue eto names = some t →
      t ∈ db ∧ Backie.Task.pendingPred now queue eto names t = true) := by
  refine ⟨?_, ?_, ?_, ?_⟩
  · intro now db queue eto names r h
    unfold SqliteStore.pullNextTask at h
    cases hsel : selectBy SqliteStore.priorityCreatedLt
        (db.filter (SqliteStore.pullPred now queue eto names)) with
    | none => rw [hsel] at h; simp at h
    | some r' =>
      rw [hsel] at h
      simp only [Option.some.injEq] at h
      subst h
      have hmem := selectBy_mem _ _ _ hsel
      exact ⟨List.mem_of_mem_filter hmem, List.of_mem_filter hmem⟩
  · intro now db queue eto names r h
    unfold SqliteStore.pullNextTask at h ⊢
    cases hsel : selectBy SqliteStore.priorityCreatedLt
        (db.filter (SqliteStore.pullPred now queue eto names)) with
    | none => rw [hsel] at h; simp at h
    | some r' =>
      rw [hsel] at h
      simp only [Option.some.injEq] at h
      subst h
      rfl
  · intro now db queue eto names h
    unfold SqliteStore.pullNextTask
    rw [filter_eq_nil_of_false _ _ h]
    rfl
  · intro now db queue eto names t h
    unfold Backie.Task.fetchNextPending at h
    have hmem := selectBy_mem _ _ _ h
    exact ⟨List.mem_of_mem_filter hmem, List.of_mem_filter hmem⟩

/-- Witness for C1 amended: the pull on an empty table returns `None`; the
pull on `[pendingRow]` at `now = 10` returns the row, which is in the
table, satisfies the store's predicate, and is marked running in the
updated table. -/
theorem c1_pull_contract_amended_witness :
    SqliteStore.pullNextTask 10 [] "q" none ["t"] = (none, []) ∧
    (SqliteStore.pendingRow ∈ [SqliteStore.pendingRow] ∧
      SqliteStore.pullPred 10 "q" none ["t"] SqliteStore.pendingRow = true) ∧
    (SqliteStore.pullNextTask 10 [SqliteStore.pendingRow] "q" none ["t"]).2
      = [SqliteStore.pendingRow].map fun row =>
          if row.id = SqliteStore.pendingRow.id then
            { row with state := "running", last_execution_date := some 10 }
          else row := by
  refine ⟨?_, ?_, ?_⟩
  · exact c1_pull_contract_amended.2.2.1 10 [] "q" none ["t"] (by intro r hr; cases hr)
  · exact c1_pull_contract_amended.1 10 [SqliteStore.pendingRow] "q" none ["t"]
      SqliteStore.pendingRow (by decide)
  · exact c1_pull_contract_amended.2.1 10 [SqliteStore.pendingRow] "q" none ["t"]
      SqliteStore.pendingRow (by decide)

/-- C2 counterexample: `SqliteTaskStore::schedule_task_retry` does not
clear the record's `running_at` (`last_execution_date`): retrying
`retriedRow` (whose `last_execution_date` is 5) leaves it at 5 instead of
null, contradicting the claim's "clears running_at to null". -/
theorem c2_retry_cex :
    (SqliteStore.scheduleTaskRetry 10 SqliteStore.retriedRow 3 "again").last_execution_date
        = some 5 ∧
    (SqliteStore.scheduleTaskRetry 10 SqliteStore.retriedRow 3 "again").last_execution_date
        ≠ none := by
  exact ⟨rfl, by decide⟩

/-- C2 amended: `Task::schedule_retry` (queries.rs) satisfies the claim in
full — increments `retries` by exactly 1, sets
`scheduled_at = now + backoff` saturating at `chrono::Duration::max_value()`,
clears `running_at`, records `error_info = {error: msg}` and returns the
updated record; `SqliteTaskStore::schedule_task_retry` does the analogous
update on its schema (`retry_count + 1`, `next_retry_date = now + backoff`,
`last_error = msg`, `state = 'pending'`, returning the updated row) except
that it leaves `last_execution_date` (`running_at`) unchanged. -/
theorem c2_schedule_retry_amended :
    (∀ (now : Int) (t : Backie.Task) (b : Nat) (msg : String),
      (Backie.Task.scheduleRetry now t b msg).retries = t.retries + 1 ∧
      (Backie.Task.scheduleRetry now t b msg).scheduled_at = Backie.chronoAddBackoff now b ∧
      (Backie.Task.scheduleRetry now t b msg).running_at = none ∧
      (Backie.Task.scheduleRetry now t b msg).error_info = some ⟨msg⟩) ∧
    (∀ (now : Int) (r : SqliteStore.TasksRow) (b : Nat) (msg : String),
      (SqliteStore.scheduleTaskRetry now r b msg).retry_count = r.retry_count + 1 ∧
      (SqliteStore.scheduleTaskRetry now r b msg).next_retry_date = some (now + b) ∧
      (SqliteStore.scheduleTaskRetry now r b msg).last_error = some msg ∧
      (SqliteStore.scheduleTaskRetry now r b msg).state = "pending" ∧
      (SqliteStore.scheduleTaskRetry now r b msg).last_execution_date
        = r.last_execution_date) :=
  ⟨fun _ _ _ _ => ⟨rfl, rfl, rfl, rfl⟩,
   fun _ _ _ _ => ⟨rfl, rfl, rfl, rfl, rfl⟩⟩

/-- C6 counterexample: with two eligible rows, `rowOldLowPrio`
(`created_at = 1`, `priority = 0`) and `rowNewHighPrio` (`created_at = 10`,
`priority = 5`), `SqliteTaskStore::pull_next_task` returns the
higher-priority, *later-created* row — `priority` takes precedence over
`created_at`, contradicting the claim. -/
theorem c6_ordering_cex :
    (SqliteStore.pullNextTask 100 [SqliteStore.rowOldLowPrio, SqliteStore.rowNewHighPrio]
        "q" none ["t"]).1 = some SqliteStore.rowNewHighPrio ∧
    SqliteStore.rowOldLowPrio.created_at < SqliteStore.rowNewHighPrio.created_at ∧
    SqliteStore.pullPred 100 "q" none ["t"] SqliteStore.rowOldLowPrio = true := by
  refine ⟨?_, by decide, by decide⟩
  decide

/-- C6 amended: `SqliteTaskStore::pull_next_task` selects a record that is
minimal for `ORDER BY priority DESC, created_at ASC` among the eligible
records — `priority` takes precedence and `created_at` only breaks equal
priorities; no `id` tie-break exists. `Task::fetch_next_pending`
(queries.rs) selects a record of minimal `created_at` among the eligible
records, again with no `id` tie-break. -/
theorem c6_ordering_amended :
    (∀ (now : Int) (db : List SqliteStore.TasksRow) (queue : String)
        (eto : Option Nat) (names : List String) (r r' : SqliteStore.TasksRow),
      (SqliteStore.pullNextTask now db queue eto names).1 = some r →
      r' ∈ db → SqliteStore.pullPred now queue eto names r' = true →
      SqliteStore.priorityCreatedLt r' r = false) ∧
    (∀ (now : Int) (db : List Backie.Task) (queue : String) (eto : Option Nat)
        (names : List String) (t t' : Backie.Task),
      Backie.Task.fetchNextPending now db queue eto names = some t →
      t' ∈ db → Backie.Task.pendingPred now queue eto names t' = true →
      t.created_at ≤ t'.created_at) := by
  have hasymP : ∀ a b, SqliteStore.priorityCreatedLt a b = true →
      SqliteStore.priorityCreatedLt b a = false := by
    intro a b hab
    simp only [SqliteStore.priorityCreatedLt, Bool.or_eq_true, Bool.and_eq_true,
      decide_eq_true_eq] at hab ⊢
    rw [Bool.or_eq_false_iff, Bool.and_eq_false_iff]
    constructor
    · simp only [decide_eq_false_iff_not, not_lt]
      omega
    · by_cases h : b.priority = a.priority
      · right; simp only [decide_eq_false_iff_not, not_lt]; omega
      · left; simp only [decide_eq_false_iff_not]; exact h
  have htransP : ∀ a b c, SqliteStore.priorityCreatedLt a b = true →
      SqliteStore.priorityCreatedLt b c = true →
      SqliteStore.priorityCreatedLt a c = true := by
    intro a b c hab hbc
    simp only [SqliteStore.priorityCreatedLt, Bool.or_eq_true, Bool.and_eq_true,
      decide_eq_true_eq] at hab hbc ⊢
    omega
  have hasymC : ∀ a b, Backie.createdAtLt a b = true → Backie.createdAtLt b a = false := by
    intro a b hab
    simp only [Backie.createdAtLt, decide_eq_true_eq] at hab
    simp only [Backie.createdAtLt, decide_eq_false_iff_not, not_lt]
    omega
  have htransC : ∀ a b c, Backie.createdAtLt a b = true → Backie.createdAtLt b c = true →
      Backie.createdAtLt a c = true := by
    intro a b c hab hbc
    simp only [Backie.createdAtLt, decide_eq_true_eq] at hab hbc ⊢
    omega
  constructor
  · intro now db queue eto names r r' h hmem hpred
    unfold SqliteStore.pullNextTask at h
    cases hsel : selectBy SqliteStore.priorityCreatedLt
        (db.filter (SqliteStore.pullPred now queue eto names)) with
    | none => rw [hsel] at h; simp at h
    | some r0 =>
      rw [hsel] at h
      simp only [Option.some.injEq] at h
      subst h
      exact selectBy_min _ hasymP htransP _ _ hsel r'
        (List.mem_filter.mpr ⟨hmem, hpred⟩)
  · intro now db queue eto names t t' h hmem hpred
    unfold Backie.Task.fetchNextPending at h
    have hmin := selectBy_min _ hasymC htransC _ _ h t'
      (List.mem_filter.mpr ⟨hmem, hpred⟩)
    simp only [Backie.createdAtLt, decide_eq_false_iff_not, not_lt] at hmin
    exact hmin

/-- Witness for C6 amended: with only `rowOldLowPrio` in the table, the
pull returns it and it is (trivially) minimal against itself. -/
theorem c6_ordering_amended_witness :
    SqliteStore.priorityCreatedLt SqliteStore.rowOldLowPrio SqliteStore.rowOldLowPrio
      = false :=
  c6_ordering_amended.1 100 [SqliteStore.rowOldLowPrio] "q" none ["t"]
    SqliteStore.rowOldLowPrio SqliteStore.rowOldLowPrio (by decide)
    (List.mem_singleton.mpr rfl) (by decide)

/-- C7 counterexample: `SqliteTaskStore::enqueue` inserts only the job's
`task_name`, `queue_name` and `payload` — two jobs that differ in
`uniq_hash`, `timeout_msecs`, `max_retries` and `backoff_mode` produce the
same inserted row, so the inserted record cannot carry those four fields,
contradicting the claim. -/
theorem c7_enqueue_cex :
    SqliteStore.enqueueRow 0 1 nvA = SqliteStore.enqueueRow 0 1 nvB ∧
    nvA.max_retries ≠ nvB.max_retries ∧
    nvA.timeout_msecs ≠ nvB.timeout_msecs ∧
    nvA.uniq_hash ≠ nvB.uniq_hash ∧
    nvA.backoff_mode ≠ nvB.backoff_mode := by
  refine ⟨rfl, by decide, by decide, by decide, by decide⟩

/-- C7 amended: `Task::insert` (queries.rs) satisfies the claim: the
inserted record is Ready with `retries = 0`, null `running_at`, `done_at`
and `error_info`, `scheduled_at = created_at = now`, and carries every
field of the new job; errors of the INSERT surface as `AsyncQueueError`
(the crate's storage error). `SqliteTaskStore::enqueue`, however, inserts a
row determined solely by the job's `task_name`, `queue_name` and `payload`. -/
theorem c7_enqueue_amended :
    (∀ (now : Int) (id : Nat) (nv : Backie.Task.NewValues),
      (Backie.Task.insert now id nv).state = Backie.TaskState.Ready ∧
      (Backie.Task.insert now id nv).retries = 0 ∧
      (Backie.Task.insert now id nv).running_at = none ∧
      (Backie.Task.insert now id nv).done_at = none ∧
      (Backie.Task.insert now id nv).error_info = none ∧
      (Backie.Task.insert now id nv).scheduled_at = now ∧
      (Backie.Task.insert now id nv).created_at = now ∧
      (Backie.Task.insert now id nv).task_name = nv.task_name ∧
      (Backie.Task.insert now id nv).queue_name = nv.queue_name ∧
      (Backie.Task.insert now id nv).uniq_hash = nv.uniq_hash ∧
      (Backie.Task.insert now id nv).payload = nv.payload ∧
      (Backie.Task.insert now id nv).timeout_msecs = nv.timeout_msecs ∧
      (Backie.Task.insert now id nv).max_retries = nv.max_retries ∧
      (Backie.Task.insert now id nv).backoff_mode = nv.backoff_mode) ∧
    (∀ (now : Int) (id : Nat) (nv1 nv2 : Backie.Task.NewValues),
      nv1.task_name = nv2.task_name → nv1.queue_name = nv2.queue_name →
      nv1.payload = nv2.payload →
      SqliteStore.enqueueRow now id nv1 = SqliteStore.enqueueRow now id nv2) := by
  constructor
  · intro now id nv
    exact ⟨rfl, rfl, rfl, rfl, rfl, rfl, rfl, rfl, rfl, rfl, rfl, rfl, rfl, rfl⟩
  · intro now id nv1 nv2 h1 h2 h3
    simp only [SqliteStore.enqueueRow, h1, h2, h3]

/-- Witness for C7 amended: a concrete insert is Ready, and the two
concrete jobs `nvA`, `nvB` (equal in name, queue and payload) yield equal
store rows. -/
theorem c7_enqueue_amended_witness :
    (Backie.Task.insert 0 1 nvA).state = Backie.TaskState.Ready ∧
    SqliteStore.enqueueRow 0 1 nvA = SqliteStore.enqueueRow 0 1 nvB :=
  ⟨(c7_enqueue_amended.1 0 1 nvA).1, c7_enqueue_amended.2 0 1 nvA nvB rfl rfl rfl⟩
